import Mathlib

/-!
Verification development for the n8n NVIDIA Triton adapter nodes.

The TypeScript sources are shallowly embedded:
* JSON values (the request and response bodies exchanged with Triton, and the
  n8n item payloads) are the inductive type `JSValue`; JavaScript objects are
  association lists in insertion order, with assignment `objSet` replacing in
  place and property read `jsGetProp` taking the first matching key.
* JavaScript numbers are modelled as exact rationals; IEEE double rounding and
  the exponent display form for extreme magnitudes are outside the scope of the
  claims checked here.  `JSNum` additionally carries the NaN and infinity
  results of the string-to-number conversions.
* Property access on `null`/`undefined` (which throws in JavaScript) and
  reference equality of two distinct aliases of the same object are not
  modelled; every theorem whose inputs could reach those corners carries a
  hypothesis keeping the data in the faithful fragment (objects with string
  fields), which is also the shape of all Triton repository-index and
  inference responses.
* The HTTP helper is an oracle argument `http : HttpRequest → Except JsError
  JSValue`; functions return the list of requests they issued alongside their
  result so that "no network call is attempted" is expressible.
-/

set_option maxHeartbeats 1000000

/-- A JSON-ish JavaScript value as handled by the adapter code. `undefined` is the
JavaScript `undefined` produced by reading an absent property. -/
inductive JSValue where
  | undefined
  | null
  | bool (b : Bool)
  | num (q : ℚ)
  | str (s : String)
  | arr (xs : List JSValue)
  | obj (fields : List (String × JSValue))

namespace JSValue

def isStr : JSValue → Bool
  | .str _ => true
  | _ => false

def isArr : JSValue → Bool
  | .arr _ => true
  | _ => false

def isObj : JSValue → Bool
  | .obj _ => true
  | _ => false

def isUndefined : JSValue → Bool
  | .undefined => true
  | _ => false

end JSValue

/-- JavaScript truthiness of a value (`if (v)`). -/
def jsTruthy : JSValue → Bool
  | .undefined => false
  | .null => false
  | .bool b => b
  | .num q => q ≠ 0
  | .str s => s ≠ ""
  | .arr _ => true
  | .obj _ => true

/-- JavaScript `a || b` on values. -/
def jsOr (a b : JSValue) : JSValue :=
  if jsTruthy a then a else b

/-- Assignment `o[k] = v` on an insertion-ordered object: replaces the first
occurrence of the key in place, otherwise appends. -/
def objSet (fs : List (String × JSValue)) (k : String) (v : JSValue) :
    List (String × JSValue) :=
  match fs with
  | [] => [(k, v)]
  | (k', v') :: rest =>
    if k' = k then (k, v) :: rest else (k', v') :: objSet rest k v

/-- Read of an own property from an object field list. -/
def objGet (fs : List (String × JSValue)) (k : String) : Option JSValue :=
  (fs.find? (fun p => p.1 = k)).map Prod.snd

/-- Decimal-digit parse of a whole string (the canonical-index test for array
properties); `none` unless the string is non-empty and all digits. -/
def strToNat? (s : String) : Option Nat :=
  if s.data ≠ [] ∧ s.data.all (fun c => decide ('0' ≤ c) && decide (c ≤ '9')) then
    some (s.data.foldl (fun a c => a * 10 + (c.toNat - 48)) 0)
  else none

/-- `s.startsWith pre` on the underlying character lists. -/
def strStartsWith (s pre : String) : Bool :=
  pre.data.isPrefixOf s.data

/-- Property read `v[k]`, total: absent properties give `undefined`.  (In
JavaScript a read on `null`/`undefined` throws; all uses below are either
guarded by the source code or by a theorem hypothesis.) -/
def jsGetProp (v : JSValue) (k : String) : JSValue :=
  match v with
  | .obj fs => (objGet fs k).getD .undefined
  | .arr xs =>
    if k = "length" then .num xs.length
    else
      match strToNat? k with
      | some i => if toString i = k then (xs.get? i).getD .undefined else .undefined
      | none => .undefined
  | _ => .undefined

/-- `k in v`: own-property membership, plus the `length`/index properties of
arrays. -/
def jsInB (k : String) (v : JSValue) : Bool :=
  match v with
  | .obj fs => fs.any (fun p => p.1 = k)
  | .arr xs =>
    k = "length" ||
      (match strToNat? k with
       | some i => decide (i < xs.length) && decide (toString i = k)
       | none => false)
  | _ => false

/-- Strict equality `===`.  Distinct object/array literals (e.g. two values of
a JSON-parsed document) are distinct references, hence `false`; comparing an
object alias with itself is not representable here and all theorems using this
operation restrict the compared fields to primitives. -/
def jsStrictEq (a b : JSValue) : Bool :=
  match a, b with
  | .undefined, .undefined => true
  | .null, .null => true
  | .bool x, .bool y => x = y
  | .num x, .num y => x = y
  | .str x, .str y => x = y
  | _, _ => false

/-- `typeof v`. -/
def jsTypeof : JSValue → String
  | .undefined => "undefined"
  | .null => "object"
  | .bool _ => "boolean"
  | .num _ => "number"
  | .str _ => "string"
  | .arr _ => "object"
  | .obj _ => "object"

/-- Multiplication of rationals through `mkRat` (definitionally reducible,
unlike the library multiplication, and equal to it by normalisation). -/
def ratMul (a b : ℚ) : ℚ := mkRat (a.num * b.num) (a.den * b.den)

/-- `10 ^ k` as a rational. -/
def pow10 (k : Nat) : ℚ := mkRat ((10 : Nat) ^ k : Nat) 1

/-- Left-pad a natural's decimal digits with zeros to width `k`. -/
def padZeros (k : Nat) (n : Nat) : String :=
  let s := toString n
  String.mk (List.replicate (k - s.length) '0') ++ s

/-- Decimal rendering of a JavaScript number (modelled as an exact rational):
integers print without a point, terminating fractions print with the minimal
number of digits.  Non-terminating rationals (never produced by the adapter)
fall back to a fraction form. -/
def numRepr (q : ℚ) : String :=
  if q.den = 1 then toString q.num
  else
    match (List.range 40).findSome?
        (fun k => if (ratMul q (pow10 (k + 1))).den = 1 then some (k + 1) else none) with
    | some k =>
      let m : Int := (ratMul q (pow10 k)).num
      let sign := if m < 0 then "-" else ""
      let a := m.natAbs
      sign ++ toString (a / 10 ^ k) ++ "." ++ padZeros k (a % 10 ^ k)
    | none => toString q.num ++ "/" ++ toString q.den

/-- Hexadecimal digit characters (uppercase), for escape sequences. -/
def hexDigitChar (n : Nat) : Char :=
  if n < 10 then Char.ofNat (48 + n) else Char.ofNat (55 + n)

/-- `JSON.stringify` escaping of a single character inside a string literal. -/
def escChar (c : Char) : String :=
  if c = '"' then "\\\""
  else if c = '\\' then "\\\\"
  else if c = '\n' then "\\n"
  else if c = '\t' then "\\t"
  else if c = '\r' then "\\r"
  else if c = Char.ofNat 8 then "\\b"
  else if c = Char.ofNat 12 then "\\f"
  else if c.toNat < 32 then
    "\\u00" ++ String.mk [hexDigitChar (c.toNat / 16), hexDigitChar (c.toNat % 16)]
  else String.singleton c

/-- `JSON.stringify` escaping of a whole string body. -/
def escStr (s : String) : String :=
  String.join (s.data.map escChar)

mutual

/-- `JSON.stringify v`.  A top-level `undefined` is rendered as the text
`undefined` (the template-literal coercion of the JavaScript result); every
use in the sources applies it to a defined JSON document. -/
def stringify : JSValue → String
  | .undefined => "undefined"
  | .null => "null"
  | .bool b => if b then "true" else "false"
  | .num q => numRepr q
  | .str s => "\"" ++ escStr s ++ "\""
  | .arr xs => "[" ++ String.intercalate "," (stringifyArrElems xs) ++ "]"
  | .obj fs => "\x7b" ++ String.intercalate "," (stringifyFieldElems fs) ++ "\x7d"

/-- Array elements under `JSON.stringify`: `undefined` becomes `null`. -/
def stringifyArrElems : List JSValue → List String
  | [] => []
  | x :: rest =>
    (match x with
     | .undefined => "null"
     | v => stringify v) :: stringifyArrElems rest

/-- Object fields under `JSON.stringify`: `undefined`-valued keys are omitted. -/
def stringifyFieldElems : List (String × JSValue) → List String
  | [] => []
  | (k, v) :: rest =>
    match v with
    | .undefined => stringifyFieldElems rest
    | v => ("\"" ++ escStr k ++ "\":" ++ stringify v) :: stringifyFieldElems rest

end

mutual

/-- JavaScript `String(v)` coercion. -/
def jsToString : JSValue → String
  | .undefined => "undefined"
  | .null => "null"
  | .bool b => if b then "true" else "false"
  | .num q => numRepr q
  | .str s => s
  | .arr xs => String.intercalate "," (jsJoinElems xs)
  | .obj _ => "[object Object]"

/-- Elements of `Array.prototype.join`: `null` and `undefined` render empty,
other values via `String(·)`. -/
def jsJoinElems : List JSValue → List String
  | [] => []
  | x :: rest =>
    (match x with
     | .undefined => ""
     | .null => ""
     | v => jsToString v) :: jsJoinElems rest

end

/-- `xs.join(sep)` on JavaScript values. -/
def jsJoin (sep : String) (xs : List JSValue) : String :=
  String.intercalate sep (jsJoinElems xs)

/-! ## String-to-number conversions (`parseFloat`, `Number`) -/

/-- Result of a JavaScript string-to-number conversion. -/
inductive JSNum where
  | fin (q : ℚ)
  | inf (neg : Bool)
  | nan
  deriving DecidableEq

namespace JSNum

def isNaN : JSNum → Bool
  | .nan => true
  | _ => false

def isFinite : JSNum → Bool
  | .fin _ => true
  | _ => false

end JSNum

def isDigitC (c : Char) : Bool :=
  decide ('0' ≤ c) && decide (c ≤ '9')

def digVal (c : Char) : Nat := c.toNat - 48

def digitsToNat (ds : List Char) : Nat :=
  ds.foldl (fun a c => a * 10 + digVal c) 0

def isHexDigitC (c : Char) : Bool :=
  isDigitC c || (decide ('a' ≤ c) && decide (c ≤ 'f')) ||
    (decide ('A' ≤ c) && decide (c ≤ 'F'))

def hexVal (c : Char) : Nat :=
  if isDigitC c then c.toNat - 48
  else if decide ('a' ≤ c) && decide (c ≤ 'f') then c.toNat - 87
  else c.toNat - 55

def isOctDigitC (c : Char) : Bool :=
  decide ('0' ≤ c) && decide (c ≤ '7')

def isBinDigitC (c : Char) : Bool :=
  c = '0' || c = '1'

/-- The JavaScript whitespace characters recognised when trimming numeric
strings (ASCII whitespace plus NBSP, BOM and the line separators). -/
def jsWsChar (c : Char) : Bool :=
  c = ' ' || c = '\t' || c = '\n' || c = '\r' ||
    c = Char.ofNat 11 || c = Char.ofNat 12 || c = Char.ofNat 0xa0 ||
    c = Char.ofNat 0xfeff || c = Char.ofNat 0x2028 || c = Char.ofNat 0x2029

/-- Parse the longest prefix shaped `digits ['.' digits] [('e'|'E') [sign]
digits]` and return its (exact rational) value with the unconsumed rest; an
ill-formed exponent suffix is left unconsumed, as both `parseFloat` and the
`Number` grammar do. -/
def parseDecPrefix (cs : List Char) : Option (ℚ × List Char) :=
  let p1 := cs.span isDigitC
  let intDs := p1.1
  let p2 :=
    match p1.2 with
    | '.' :: t => t.span isDigitC
    | _ => ([], p1.2)
  let fracDs := p2.1
  let r2 := if (p1.2.head? = some '.') then p2.2 else p1.2
  if intDs.isEmpty && fracDs.isEmpty then none
  else
    let mant : ℚ :=
      mkRat (digitsToNat intDs * 10 ^ fracDs.length + digitsToNat fracDs)
        ((10 : Nat) ^ fracDs.length)
    match r2 with
    | e :: t =>
      if e = 'e' || e = 'E' then
        let sp :=
          match t with
          | '+' :: t' => ((1 : Int), t')
          | '-' :: t' => ((-1 : Int), t')
          | _ => ((1 : Int), t)
        let ep := sp.2.span isDigitC
        if ep.1.isEmpty then some (mant, r2)
        else
          let ex : Int := sp.1 * (digitsToNat ep.1 : Int)
          some ((if 0 ≤ ex then ratMul mant (pow10 ex.toNat)
                 else ratMul mant (mkRat 1 ((10 : Nat) ^ (-ex).toNat))), ep.2)
      else some (mant, r2)
    | [] => some (mant, [])

/-- `parseFloat(s)`: skip leading whitespace, take an optional sign, then the
longest decimal-literal prefix; trailing characters are ignored. -/
def parseFloatNum (s : String) : JSNum :=
  let cs := s.data.dropWhile jsWsChar
  let sp :=
    match cs with
    | '-' :: t => (true, t)
    | '+' :: t => (false, t)
    | _ => (false, cs)
  if "Infinity".data.isPrefixOf sp.2 then .inf sp.1
  else
    match parseDecPrefix sp.2 with
    | some (q, _) => .fin (if sp.1 then -q else q)
    | none => .nan

/-- The finite value of `parseFloat(s)` (`0` when it is NaN or infinite). -/
def parseFloatQ (s : String) : ℚ :=
  match parseFloatNum s with
  | .fin q => q
  | _ => 0

/-- Parse a whole radix literal body (the part after `0x`/`0o`/`0b`). -/
def radixParse (ds : List Char) (base : Nat) (isD : Char → Bool)
    (val : Char → Nat) : JSNum :=
  if ds.isEmpty then .nan
  else if ds.all isD then .fin ((ds.foldl (fun a c => a * base + val c) 0 : Nat) : ℚ)
  else .nan

/-- The decimal branch of `Number(s)`: optional sign, then `Infinity` or a
decimal literal consuming the whole remaining input. -/
def jsNumberDec (cs : List Char) : JSNum :=
  let sp :=
    match cs with
    | '-' :: t => (true, t)
    | '+' :: t => (false, t)
    | _ => (false, cs)
  if sp.2 = "Infinity".data then .inf sp.1
  else
    match parseDecPrefix sp.2 with
    | some (q, []) => .fin (if sp.1 then -q else q)
    | _ => .nan

/-- `Number(s)` (the implicit conversion performed by `isFinite(s)`): trim
whitespace; empty means `0`; `0x`/`0o`/`0b` radix literals take no sign and no
exponent; otherwise a signed decimal literal or `Infinity`, consuming the
whole string. -/
def jsNumber (s : String) : JSNum :=
  let cs := ((s.data.dropWhile jsWsChar).reverse.dropWhile jsWsChar).reverse
  match cs with
  | [] => .fin 0
  | '0' :: x :: rest =>
    if x = 'x' || x = 'X' then radixParse rest 16 isHexDigitC hexVal
    else if x = 'o' || x = 'O' then radixParse rest 8 isOctDigitC digVal
    else if x = 'b' || x = 'B' then radixParse rest 2 isBinDigitC digVal
    else jsNumberDec cs
  | _ => jsNumberDec cs

/-- ASCII `toLowerCase` (the code only compares the result against the ASCII
words `true` and `false`). -/
def jsToLower (s : String) : String :=
  String.mk (s.data.map (fun c =>
    if 'A' ≤ c ∧ c ≤ 'Z' then Char.ofNat (c.toNat + 32) else c))

/-! ## Parameter coercion (execute node, `LmChatNvidiaTriton.ts` lines 240-253) -/

/-- Opportunistic coercion of one parameter value: lowercased `true`/`false`
become booleans; a string whose `parseFloat` is not NaN and whose `Number`
conversion is finite becomes that `parseFloat` value; everything else is kept.
(`parseFloat` infinite together with `Number` finite cannot occur, so the
fallthrough in that branch is never taken.) -/
def coerceParamValue (v : JSValue) : JSValue :=
  match v with
  | .str s =>
    if jsToLower s = "true" then .bool true
    else if jsToLower s = "false" then .bool false
    else if !(parseFloatNum s).isNaN && (jsNumber s).isFinite then
      match parseFloatNum s with
      | .fin q => .num q
      | _ => .str s
    else .str s
  | _ => v

/-- Build the `parameters` object transmitted to Triton: entries with an empty
name are skipped, later entries overwrite earlier ones of the same name. -/
def buildTritonParameters (params : List (String × JSValue)) :
    List (String × JSValue) :=
  params.foldl
    (fun acc p => if p.1 ≠ "" then objSet acc p.1 (coerceParamValue p.2) else acc) []

/-! ## The execute node (`LmNvidiaTritonChat.execute`) -/

/-- UTF-8 bytes of a character. -/
def utf8Bytes (c : Char) : List Nat :=
  let n := c.toNat
  if n < 0x80 then [n]
  else if n < 0x800 then [0xc0 + n / 64, 0x80 + n % 64]
  else if n < 0x10000 then [0xe0 + n / 4096, 0x80 + (n / 64) % 64, 0x80 + n % 64]
  else [0xf0 + n / 262144, 0x80 + (n / 4096) % 64, 0x80 + (n / 64) % 64, 0x80 + n % 64]

/-- Characters `encodeURIComponent` leaves unescaped. -/
def uriUnreservedC (c : Char) : Bool :=
  (decide ('A' ≤ c) && decide (c ≤ 'Z')) ||
    (decide ('a' ≤ c) && decide (c ≤ 'z')) || isDigitC c ||
    c = '-' || c = '_' || c = '.' || c = '!' || c = '~' || c = '*' ||
    c = Char.ofNat 39 || c = '(' || c = ')'

def pctByte (b : Nat) : String :=
  "%" ++ String.mk [hexDigitChar (b / 16), hexDigitChar (b % 16)]

def encodeURIComponent (s : String) : String :=
  String.join (s.data.map (fun c =>
    if uriUnreservedC c then String.singleton c
    else String.join ((utf8Bytes c).map pctByte)))

/-- `url.replace(/\/+$/, '')`. -/
def stripTrailingSlashes (s : String) : String :=
  String.mk ((s.data.reverse.dropWhile (fun c => c = '/')).reverse)

/-- An error value thrown inside the node: the fields of a JavaScript `Error`
(resp. n8n `NodeApiError`) read by the adapter; absent properties are
`undefined`. -/
structure JsError where
  message : String
  stack : String
  responseData : JSValue
  cause : JSValue
  httpCode : JSValue
  requestUrl : JSValue
  requestPayload : JSValue

/-- `new Error(m)`. -/
def mkJsError (m : String) : JsError :=
  ⟨m, "", .undefined, .undefined, .undefined, .undefined, .undefined⟩

/-- A POST/GET request descriptor handed to the n8n HTTP helper. -/
structure HttpRequest where
  method : String
  url : String
  body : JSValue

/-- The node configuration read by `execute` via `getNodeParameter`. -/
structure ExecCfg where
  modelName : String
  textInput : String
  outputFieldNameN8n : String
  endpointPathSegment : String
  requestInputField : String
  responseOutputField : String
  parameters : List (String × JSValue)

/-- Target URL of the outbound call:
`{server}/v2/models/{encodeURIComponent(model)}{segment}` with a `/` glued in
front of a segment that lacks one. -/
def executeUrl (serverUrl : String) (cfg : ExecCfg) : String :=
  serverUrl ++ "/v2/models/" ++ encodeURIComponent cfg.modelName ++
    (if strStartsWith cfg.endpointPathSegment "/" then cfg.endpointPathSegment
     else "/" ++ cfg.endpointPathSegment)

/-- The JSON payload of the outbound call: the text input under the configured
request field (when that name is non-empty), then the coerced parameters under
`parameters` (when non-empty). -/
def executePayload (cfg : ExecCfg) : List (String × JSValue) :=
  let tp := buildTritonParameters cfg.parameters
  let p1 :=
    if cfg.requestInputField ≠ "" then
      objSet [] cfg.requestInputField (.str cfg.textInput)
    else []
  if tp.isEmpty then p1 else objSet p1 "parameters" (.obj tp)

def executeRequest (serverUrl : String) (cfg : ExecCfg) : HttpRequest :=
  ⟨"POST", executeUrl serverUrl cfg, .obj (executePayload cfg)⟩

/-- The guard `responseData && typeof responseData === 'object' &&
responseData !== null && responseOutputField in responseData`. -/
def executeRespHasField (field : String) (resp : JSValue) : Bool :=
  jsTruthy resp && (jsTypeof resp == "object") && !(jsStrictEq resp .null) &&
    jsInB field resp

/-- One iteration of the `execute` loop body (the `try` block): validate,
issue the POST, extract the completion, shape the merged output record.  The
second component lists the HTTP requests issued. -/
def processItem (http : HttpRequest → Except JsError JSValue)
    (serverUrl : String) (cfg : ExecCfg)
    (itemJson : List (String × JSValue)) :
    Except JsError (List (String × JSValue)) × List HttpRequest :=
  if cfg.modelName = "" then
    (.error (mkJsError "Model Name is a required parameter."), [])
  else if cfg.textInput = "" ∧ cfg.requestInputField ≠ "" then
    (.error (mkJsError "Text Input is a required parameter."), [])
  else
    let req := executeRequest serverUrl cfg
    match http req with
    | .error e => (.error e, [req])
    | .ok resp =>
      let completionText :=
        if executeRespHasField cfg.responseOutputField resp then
          jsToString (jsGetProp resp cfg.responseOutputField)
        else ""
      (.ok (objSet (objSet itemJson cfg.outputFieldNameN8n (.str completionText))
          "rawTritonResponse" resp), [req])

/-- The structured error object emitted under continue-on-fail. -/
def errorDetailsOf (e : JsError) : JSValue :=
  .obj [("message", .str e.message), ("stack", .str e.stack),
        ("details", jsOr e.responseData (jsOr e.cause (.str "No additional details"))),
        ("requestUrl", e.requestUrl), ("requestPayload", e.requestPayload)]

/-- The re-thrown error when continue-on-fail is off: message wrapped, server
detail from `error.response.data.error` appended when truthy. -/
def enrichError (e : JsError) : JsError :=
  let base := "Triton API Error: " ++ e.message ++
    ". Check node parameters and Triton server logs."
  let detail := jsGetProp e.responseData "error"
  { e with
    message :=
      if jsTruthy detail then base ++ " Server detail: " ++ jsToString detail
      else base }

/-- One output record of the node: a success record (merged json) or, under
continue-on-fail, the original item json paired with the error object. -/
inductive NodeRecord where
  | ok (json : List (String × JSValue))
  | err (json : List (String × JSValue)) (errObj : JSValue)

/-- The per-item loop of `execute` from item index `i` on. -/
def executeItems (continueOnFail : Bool)
    (http : HttpRequest → Except JsError JSValue) (serverUrl : String)
    (cfg : Nat → ExecCfg) :
    Nat → List (List (String × JSValue)) → Except JsError (List NodeRecord)
  | _, [] => .ok []
  | i, item :: rest =>
    match (processItem http serverUrl (cfg i) item).1 with
    | .ok r =>
      (executeItems continueOnFail http serverUrl cfg (i + 1) rest).map
        (fun l => NodeRecord.ok r :: l)
    | .error e =>
      if continueOnFail then
        (executeItems continueOnFail http serverUrl cfg (i + 1) rest).map
          (fun l => NodeRecord.err item (errorDetailsOf e) :: l)
      else .error (enrichError e)

/-- `LmNvidiaTritonChat.execute`: strip the credential URL, then run the item
loop.  `cfg i` is the node configuration resolved for item `i`. -/
def executeNode (continueOnFail : Bool)
    (http : HttpRequest → Except JsError JSValue) (rawServerUrl : String)
    (cfg : Nat → ExecCfg) (items : List (List (String × JSValue))) :
    Except JsError (List NodeRecord) :=
  executeItems continueOnFail http (stripTrailingSlashes rawServerUrl) cfg 0 items

/-! ## Model discovery (`getModels` load-options method) -/

/-- Substring test (`String.prototype.includes`). -/
def strContains (hay needle : String) : Bool :=
  hay.data.tails.any (fun t => needle.data.isPrefixOf t)

/-- The repository-index filter
`model.name && (model.state === 'READY' || !model.state)`. -/
def tritonAdmissible (m : JSValue) : Bool :=
  jsTruthy (jsGetProp m "name") &&
    (jsStrictEq (jsGetProp m "state") (.str "READY") ||
      !jsTruthy (jsGetProp m "state"))

/-- One selectable option `(name, value)` from an index entry: display name is
`name (vVERSION)` when a truthy version is present, otherwise the raw name;
the option value is the raw name. -/
def modelOption (m : JSValue) : JSValue × JSValue :=
  (if jsTruthy (jsGetProp m "version") then
     .str (jsToString (jsGetProp m "name") ++ " (v" ++
       jsToString (jsGetProp m "version") ++ ")")
   else jsGetProp m "name",
   jsGetProp m "name")

/-- The admissible index entries mapped to options, in response order. -/
def candidateModels (xs : List JSValue) : List (JSValue × JSValue) :=
  (xs.filter tritonAdmissible).map modelOption

/-- `models.filter((model, index, self) => index === self.findIndex(m =>
m.value === model.value))`: keep the element at `i` exactly when the first
index carrying its value is `i`. -/
def filterUniqueAux (full : List (JSValue × JSValue)) :
    Nat → List (JSValue × JSValue) → List (JSValue × JSValue)
  | _, [] => []
  | i, x :: rest =>
    if full.findIdx? (fun m => jsStrictEq m.2 x.2) = some i then
      x :: filterUniqueAux full (i + 1) rest
    else filterUniqueAux full (i + 1) rest

def jsFilterUnique (l : List (JSValue × JSValue)) : List (JSValue × JSValue) :=
  filterUniqueAux l 0 l

/-- The sentinel message assembled in the `catch` branch of `getModels`. -/
def getModelsCatchMsg (serverUrl : String) (e : JsError) : String :=
  if strContains e.message "ECONNREFUSED" then
    "Connection refused at " ++ serverUrl ++ "."
  else if jsTruthy e.responseData then
    "Error from Triton: " ++ stringify e.responseData
  else if e.message ≠ "" then "Network/other error: " ++ e.message
  else "Error fetching models. Check Triton server URL and network."

/-- `getModels`: list the READY (or state-less) models of the repository
index as `(name, value)` options; every failure path yields a single sentinel
option with an empty value. `httpResult` is the outcome of the
`GET {server}/v2/repository/index` call. -/
def getModels (serverUrl? : Option String)
    (httpResult : Except JsError JSValue) : List (JSValue × JSValue) :=
  match serverUrl? with
  | none => [(.str "Error: Triton Server URL not configured in credentials.", .str "")]
  | some u =>
    if u = "" then
      [(.str "Error: Triton Server URL not configured in credentials.", .str "")]
    else
      let serverUrl := stripTrailingSlashes u
      match httpResult with
      | .ok (.arr xs) =>
        let uniqueModels := jsFilterUnique (candidateModels xs)
        if uniqueModels.isEmpty then
          [(.str "No ready models found or repository index empty.", .str "")]
        else uniqueModels
      | .ok _ => [(.str "Error fetching models (unexpected format)", .str "")]
      | .error e => [(.str (getModelsCatchMsg serverUrl e), .str "")]

/-! ## The LangChain chat-model variants (`LmChatNvidiaTriton.node.ts`) -/

/-- The prompt both `_generate` implementations build from the message list:
a single space when there are no messages, the last message's content when it
is a string, `JSON.stringify` of it otherwise.  (A message is represented by
its `content` value.) -/
def promptOf (messages : List JSValue) : String :=
  match messages.getLast? with
  | none => " "
  | some (.str s) => s
  | some other => stringify other

/-- The error message thrown when the HTTP helper rejects:
`Nvidia Triton API Error (Status ...): ...` with the `||`-chained fallbacks of
the source. -/
def tritonApiErrMsg (fallback : String) (e : JsError) : String :=
  let msgV := jsOr (jsGetProp e.cause "message") (jsOr (.str e.message) (.str fallback))
  let status := jsOr (jsGetProp (jsGetProp e.cause "response") "status")
    (jsOr e.httpCode (.num 500))
  "Nvidia Triton API Error (Status " ++ jsToString status ++ "): " ++ jsToString msgV

/-- The `/infer` request payload: fresh id, one BYTES input tensor of shape
`[1]` holding the prompt, one requested output, and a `parameters` object when
a temperature is configured. -/
def inferPayload (requestId inF outF : String) (temperature : Option ℚ)
    (prompt : String) : List (String × JSValue) :=
  let base : List (String × JSValue) :=
    [("id", .str requestId),
     ("inputs", .arr [.obj [("name", .str inF), ("shape", .arr [.num 1]),
       ("datatype", .str "BYTES"), ("data", .arr [.str prompt])]]),
     ("outputs", .arr [.obj [("name", .str outF)]])]
  match temperature with
  | some t => objSet base "parameters" (.obj [("temperature", .num t)])
  | none => base

/-- The `/infer` response extractor (`_generate` lines 162-183): four guarded
failure cases, each with its own message, then the first data element. -/
def inferExtract (f : String) (resp : JSValue) : Except String String :=
  match jsGetProp resp "outputs" with
  | .arr xs =>
    match xs.find? (fun o => jsStrictEq (jsGetProp o "name") (.str f)) with
    | none =>
      .error ("Output field '" ++ f ++ "' not found. Available: " ++
        jsJoin ", " (xs.map (fun o => jsGetProp o "name")))
    | some outputObject =>
      match jsGetProp outputObject "data" with
      | .arr (x :: _) =>
        match x with
        | .str s => .ok s
        | other =>
          .error ("Expected string data for '" ++ f ++ "', got " ++ jsTypeof other)
      | _ =>
        .error ("Data for '" ++ f ++ "' missing/not array. Output: " ++
          stringify outputObject)
  | _ =>
    .error ("Invalid response: 'outputs' array not found. Response: " ++
      stringify resp)

/-- Configuration of the `/infer` chat model (constructor fields). -/
structure InferCfg where
  tritonBaseUrl : String
  modelName : String
  inputFieldName : String
  outputFieldName : String
  temperature : Option ℚ

/-- `_generate` of the `/infer` variant: build the prompt and payload, POST to
`{base}/v2/models/{model}/infer`, then extract.  `requestId` stands for the
freshly generated `n8n_${uuidv4()}` token. -/
def inferChatGenerate (http : HttpRequest → Except JsError JSValue)
    (cfg : InferCfg) (requestId : String) (messages : List JSValue) :
    Except String String × List HttpRequest :=
  let promptText := promptOf messages
  let payload := inferPayload requestId cfg.inputFieldName cfg.outputFieldName
    cfg.temperature promptText
  let endpoint := stripTrailingSlashes cfg.tritonBaseUrl ++ "/v2/models/" ++
    cfg.modelName ++ "/infer"
  let req : HttpRequest := ⟨"POST", endpoint, .obj payload⟩
  match http req with
  | .error e => (.error (tritonApiErrMsg "Unknown error" e), [req])
  | .ok resp => (inferExtract cfg.outputFieldName resp, [req])

/-- Configuration of the `/generate` chat model (constructor fields, with the
source's `?? 0.0` and `?? false` defaults already applied). -/
structure GenCfg where
  tritonBaseUrl : String
  modelName : String
  temperature : ℚ
  streamOutput : Bool

/-- The `/generate` chat-model payload. -/
def genPayload (cfg : GenCfg) (prompt : String) : List (String × JSValue) :=
  [("text_input", .str prompt),
   ("parameters", .obj [("stream", .bool cfg.streamOutput),
     ("temperature", .num cfg.temperature)])]

/-- The `/generate` chat-model response extractor: the top-level `text_output`
field must be a string, otherwise a hard failure carrying the serialized
response. -/
def genExtract (resp : JSValue) : Except String String :=
  match jsGetProp resp "text_output" with
  | .str s => .ok s
  | _ =>
    .error ("Invalid response structure from Triton: 'text_output' not found or not a string. Response: "
      ++ stringify resp)

/-- `_generate` of the `/generate` variant. -/
def genChatGenerate (http : HttpRequest → Except JsError JSValue)
    (cfg : GenCfg) (messages : List JSValue) :
    Except String String × List HttpRequest :=
  let promptText := promptOf messages
  let req : HttpRequest :=
    ⟨"POST", stripTrailingSlashes cfg.tritonBaseUrl ++ "/v2/models/" ++
      cfg.modelName ++ "/generate", .obj (genPayload cfg promptText)⟩
  match http req with
  | .error e => (.error (tritonApiErrMsg "Unknown error during Triton API call" e), [req])
  | .ok resp => (genExtract resp, [req])

/-! ## Credential descriptors (`NvidiaTritonApi.credentials.ts`) -/

/-- The declared credential test request of a credential descriptor. -/
structure CredTestRequest where
  baseURL : String
  url : String
  method : Option String

/-- Variant 1: base URL is the host expression interpolating the credential's
`baseUrl` field. -/
def nvidiaTritonApiTestV1 : CredTestRequest :=
  ⟨"=\x7b\x7b$credentials.baseUrl\x7d\x7d", "/v2/health/live", some "GET"⟩

/-- Variant 2: base URL is the string constant `http://localhost:8000` (its
accompanying comment says it should be the credential's `tritonServerUrl`),
and no method is declared. -/
def nvidiaTritonApiTestV2 : CredTestRequest :=
  ⟨"http://localhost:8000", "/v2/health/live", none⟩

/-- Modelled from the spec: the host's credential-test framework resolves an
`=`-prefixed value of the form `={{$credentials.FIELD}}` against the stored
credential fields and treats any other value as a literal.  (The host itself
is outside this repository.) -/
def resolveCredExpr (cred : String → Option String) (s : String) : String :=
  if "=\x7b\x7b$credentials.".data.isPrefixOf s.data ∧
      "\x7d\x7d".data.isSuffixOf s.data then
    (cred (String.mk (((s.data.drop 16).reverse.drop 2).reverse))).getD ""
  else s


/-- Which of the infer extractor's four guarded failure cases fires, in source
order (`0`: `outputs` missing/not an array, `1`: no entry named the output
field, `2`: `data` missing/not an array/empty, `3`: first data element not a
string); `none` when all preconditions hold. -/
def inferCaseIdx (f : String) (resp : JSValue) : Option (Fin 4) :=
  match jsGetProp resp "outputs" with
  | .arr xs =>
    match xs.find? (fun o => jsStrictEq (jsGetProp o "name") (.str f)) with
    | none => some 1
    | some outputObject =>
      match jsGetProp outputObject "data" with
      | .arr (x :: _) => if x.isStr then none else some 3
      | _ => some 2
  | _ => some 0

/-- The distinct first character of each failure case's message. -/
def inferCaseHeadChar (i : Fin 4) : Char :=
  if i = 0 then 'I' else if i = 1 then 'O' else if i = 2 then 'D' else 'E'

/-- All elements of a response's `outputs` array are objects: the fragment in
which element property access is modelled faithfully (a `null` element would
make the JavaScript throw a `TypeError` instead). -/
def outputsElemsObjB (resp : JSValue) : Bool :=
  match jsGetProp resp "outputs" with
  | .arr xs => xs.all (fun o => o.isObj)
  | _ => true

/-- The first character of an error result's message (`none` for a success). -/
def exceptErrHead : Except String String → Option Char
  | .error m => m.data.head?
  | .ok _ => none

/-- Whether an extraction succeeded. -/
def exceptIsOk : Except String String → Bool
  | .ok _ => true
  | .error _ => false

/-- A repository-index entry in the faithfully modelled fragment: an object
whose `name` property is a string (the shape of all Triton index entries). -/
def modelEntryOkB (m : JSValue) : Bool :=
  m.isObj && (jsGetProp m "name").isStr

/-! ## Helper lemmas -/

theorem objGet_objSet (fs : List (String × JSValue)) (k k' : String) (v : JSValue) :
    objGet (objSet fs k v) k' = if k' = k then some v else objGet fs k' := by
  induction fs with
  | nil =>
    by_cases h : k' = k
    · subst h; simp [objSet, objGet, List.find?]
    · simp [objSet, objGet, List.find?, h, show ¬(k = k') from fun hh => h hh.symm]
  | cons p rest ih =>
    obtain ⟨k0, v0⟩ := p
    by_cases h0 : k0 = k
    · subst h0
      by_cases h : k' = k0
      · subst h; simp [objSet, objGet, List.find?]
      · simp [objSet, objGet, List.find?, h, show ¬(k0 = k') from fun hh => h hh.symm]
    · by_cases h : k' = k0
      · subst h
        simp [objSet, objGet, List.find?, h0,
          show k' ≠ k from fun hh => h0 (hh ▸ rfl)]
      · simpa [objSet, objGet, List.find?, h0, show ¬(k0 = k') from fun hh => h hh.symm]
          using ih

theorem strHead_append (a b : String) (c : Char)
    (h : a.data.head? = some c) : (a ++ b).data.head? = some c := by
  rw [String.data_append]
  cases a with
  | mk l =>
    cases l with
    | nil => simp at h
    | cons x xs => simpa using h

theorem findIdx?_lt_false {α : Type} (l : List α) (p : α → Bool) (j : Nat)
    (h : l.findIdx? p = some j) :
    ∀ k, k < j → ∀ x : α, l.get? k = some x → p x = false := by
  induction l generalizing j with
  | nil => simp [List.findIdx?] at h
  | cons a rest ih =>
    rw [List.findIdx?_cons, List.findIdx?_succ] at h
    by_cases ha : p a
    · simp [ha] at h
      intro k hk
      omega
    · simp [ha] at h
      obtain ⟨j', hj', rfl⟩ := h
      intro k hk x hx
      cases k with
      | zero =>
        rw [List.get?_cons_zero] at hx
        injection hx with hx
        subst hx
        simpa using ha
      | succ k' =>
        rw [List.get?_cons_succ] at hx
        exact ih j' hj' k' (by omega) x hx

theorem find?_of_findIdx?_get? {α : Type} (l : List α) (p : α → Bool) (j : Nat)
    (x : α) (hidx : l.findIdx? p = some j) (hget : l.get? j = some x) :
    l.find? p = some x := by
  induction l generalizing j with
  | nil => simp [List.findIdx?] at hidx
  | cons a rest ih =>
    rw [List.findIdx?_cons, List.findIdx?_succ] at hidx
    by_cases ha : p a
    · simp [ha] at hidx
      subst hidx
      rw [List.get?_cons_zero] at hget
      injection hget with hget
      subst hget
      simp [List.find?, ha]
    · simp [ha] at hidx
      obtain ⟨j', hj', rfl⟩ := hidx
      rw [List.get?_cons_succ] at hget
      simp [List.find?, ha]
      exact ih j' hj' hget

theorem filterUniqueAux_mem (full : List (JSValue × JSValue)) :
    ∀ (k : Nat) (sub : List (JSValue × JSValue)) (y : JSValue × JSValue),
      sub = full.drop k → y ∈ filterUniqueAux full k sub →
      ∃ j, k ≤ j ∧ full.findIdx? (fun m => jsStrictEq m.2 y.2) = some j ∧
        full.get? j = some y := by
  intro k sub
  induction sub generalizing k with
  | nil =>
    intro y _ hy
    simp [filterUniqueAux] at hy
  | cons x rest ih =>
    intro y hsub hy
    have hx : full.get? k = some x := by
      have h0 := List.get?_drop full k 0
      rw [← hsub] at h0
      simpa using h0.symm
    have hrest : rest = full.drop (k + 1) := by
      have h1 := List.tail_drop full k
      rw [← hsub] at h1
      simpa using h1
    rw [filterUniqueAux] at hy
    by_cases hcond : full.findIdx? (fun m => jsStrictEq m.2 x.2) = some k
    · rw [if_pos hcond] at hy
      rcases List.mem_cons.mp hy with h | h
      · subst h
        exact ⟨k, le_refl k, hcond, hx⟩
      · obtain ⟨j, hj, hfi, hg⟩ := ih (k + 1) y hrest h
        exact ⟨j, by omega, hfi, hg⟩
    · rw [if_neg hcond] at hy
      obtain ⟨j, hj, hfi, hg⟩ := ih (k + 1) y hrest hy
      exact ⟨j, by omega, hfi, hg⟩

theorem filterUniqueAux_pairwise (full : List (JSValue × JSValue)) :
    ∀ (k : Nat) (sub : List (JSValue × JSValue)), sub = full.drop k →
      List.Pairwise (fun a b => a.2 ≠ b.2) (filterUniqueAux full k sub) := by
  intro k sub
  induction sub generalizing k with
  | nil =>
    intro _
    simp [filterUniqueAux]
  | cons x rest ih =>
    intro hsub
    have hrest : rest = full.drop (k + 1) := by
      have h1 := List.tail_drop full k
      rw [← hsub] at h1
      simpa using h1
    rw [filterUniqueAux]
    by_cases hcond : full.findIdx? (fun m => jsStrictEq m.2 x.2) = some k
    · rw [if_pos hcond]
      refine List.Pairwise.cons ?_ (ih (k + 1) hrest)
      intro y hy hxy
      obtain ⟨j, hj, hfi, _⟩ := filterUniqueAux_mem full (k + 1) rest y hrest hy
      have hfun : (fun m : JSValue × JSValue => jsStrictEq m.2 y.2) =
          (fun m : JSValue × JSValue => jsStrictEq m.2 x.2) := by
        funext m
        rw [hxy]
      rw [hfun, hcond] at hfi
      injection hfi with hfi
      omega
    · rw [if_neg hcond]
      exact ih (k + 1) hrest

theorem jsFilterUnique_first (l : List (JSValue × JSValue)) (o : JSValue × JSValue)
    (ho : o ∈ jsFilterUnique l) :
    l.find? (fun m => jsStrictEq m.2 o.2) = some o := by
  obtain ⟨j, _, hfi, hg⟩ := filterUniqueAux_mem l 0 l o (by simp) ho
  exact find?_of_findIdx?_get? l _ j o hfi hg

theorem jsFilterUnique_values_nodup (l : List (JSValue × JSValue)) :
    ((jsFilterUnique l).map Prod.snd).Nodup := by
  have hp := filterUniqueAux_pairwise l 0 l (by simp)
  exact List.Pairwise.map _ (fun a b h => h) hp

theorem jsFilterUnique_ne_nil (c : JSValue × JSValue) (cs : List (JSValue × JSValue))
    (hc : jsStrictEq c.2 c.2 = true) : jsFilterUnique (c :: cs) ≠ [] := by
  unfold jsFilterUnique filterUniqueAux
  rw [List.findIdx?_cons]
  simp [hc]

/-! ## Claim theorems -/

/-- C9: the first credential-descriptor variant declares its health-check test
against the configured base URL (`={{$credentials.baseUrl}}` resolves to the
stored field) with path `/v2/health/live` and method GET, but the second
variant's declared `baseURL` is the string constant `http://localhost:8000`,
so its test request goes to a fixed address no matter which server URL the
credential stores — contradicting the comment above it in the source. -/
theorem c9_fixed_base_url :
    nvidiaTritonApiTestV2.baseURL = "http://localhost:8000" ∧
    (∀ cred : String → Option String,
      resolveCredExpr cred nvidiaTritonApiTestV2.baseURL = "http://localhost:8000") ∧
    (∀ base : String,
      resolveCredExpr (fun k => if k = "baseUrl" then some base else none)
        nvidiaTritonApiTestV1.baseURL = base) ∧
    nvidiaTritonApiTestV1.url = "/v2/health/live" ∧
    nvidiaTritonApiTestV2.url = "/v2/health/live" ∧
    nvidiaTritonApiTestV1.method = some "GET" := by
  refine ⟨rfl, fun cred => ?_, fun base => ?_, rfl, rfl, rfl⟩
  · rw [resolveCredExpr, if_neg (by decide)]
    rfl
  · rw [resolveCredExpr, if_pos (by decide)]
    rfl

/-- C10 counterexample: a last message whose content is the empty string is
forwarded as the empty prompt, not as the single-space placeholder the claim
asserts. -/
theorem c10_counterexample :
    promptOf [JSValue.str ""] = "" ∧ ("" : String) ≠ " " := by
  exact ⟨rfl, by decide⟩

/-- C10 (amended): the single-space placeholder is used only for an empty
message list; a last message with string content is forwarded verbatim (so an
empty string stays empty), non-string content is JSON-stringified, and in all
cases both chat-model variants still issue exactly one HTTP request whose
payload embeds that prompt. -/
theorem c10_amended :
    (promptOf [] = " ") ∧
    (∀ (msgs : List JSValue) (s : String),
      msgs.getLast? = some (.str s) → promptOf msgs = s) ∧
    (∀ (msgs : List JSValue) (c : JSValue),
      msgs.getLast? = some c → c.isStr = false → promptOf msgs = stringify c) ∧
    (∀ (http : HttpRequest → Except JsError JSValue) (cfg : InferCfg)
      (rid : String) (msgs : List JSValue),
      (inferChatGenerate http cfg rid msgs).2 =
        [⟨"POST",
          stripTrailingSlashes cfg.tritonBaseUrl ++ "/v2/models/" ++
            cfg.modelName ++ "/infer",
          .obj (inferPayload rid cfg.inputFieldName cfg.outputFieldName
            cfg.temperature (promptOf msgs))⟩]) ∧
    (∀ (http : HttpRequest → Except JsError JSValue) (cfg : GenCfg)
      (msgs : List JSValue),
      (genChatGenerate http cfg msgs).2 =
        [⟨"POST",
          stripTrailingSlashes cfg.tritonBaseUrl ++ "/v2/models/" ++
            cfg.modelName ++ "/generate",
          .obj (genPayload cfg (promptOf msgs))⟩]) := by
  refine ⟨rfl, ?_, ?_, ?_, ?_⟩
  · intro msgs s h
    unfold promptOf
    rw [h]
  · intro msgs c h hc
    unfold promptOf
    rw [h]
    cases c <;> simp_all [JSValue.isStr]
  · intro http cfg rid msgs
    cases h : http ⟨"POST",
        stripTrailingSlashes cfg.tritonBaseUrl ++ "/v2/models/" ++
          cfg.modelName ++ "/infer",
        .obj (inferPayload rid cfg.inputFieldName cfg.outputFieldName
          cfg.temperature (promptOf msgs))⟩ <;>
      simp [inferChatGenerate, h]
  · intro http cfg msgs
    cases h : http ⟨"POST",
        stripTrailingSlashes cfg.tritonBaseUrl ++ "/v2/models/" ++
          cfg.modelName ++ "/generate", .obj (genPayload cfg (promptOf msgs))⟩ <;>
      simp [genChatGenerate, h]

/-- C10 amended witness at concrete inputs. -/
theorem c10_amended_witness :
    promptOf [JSValue.str "hello"] = "hello" ∧
    promptOf [JSValue.num 5] = stringify (JSValue.num 5) ∧
    promptOf [] = " " :=
  ⟨c10_amended.2.1 [JSValue.str "hello"] "hello" rfl,
   c10_amended.2.2.1 [JSValue.num 5] (JSValue.num 5) rfl rfl,
   c10_amended.1⟩

/-- C8: an empty model name — or an empty text input while a request input
field name is configured — makes the item fail with the source's descriptive
error message, and the request log stays empty: no HTTP call is issued for
that item. -/
theorem c8_fail_fast :
    ∀ (http : HttpRequest → Except JsError JSValue) (serverUrl : String)
      (cfg : ExecCfg) (item : List (String × JSValue)),
      (cfg.modelName = "" →
        processItem http serverUrl cfg item =
          (.error (mkJsError "Model Name is a required parameter."), [])) ∧
      (cfg.modelName ≠ "" → cfg.textInput = "" → cfg.requestInputField ≠ "" →
        processItem http serverUrl cfg item =
          (.error (mkJsError "Text Input is a required parameter."), [])) := by
  intro http serverUrl cfg item
  constructor
  · intro h
    unfold processItem
    rw [if_pos h]
  · intro h1 h2 h3
    unfold processItem
    rw [if_neg h1, if_pos ⟨h2, h3⟩]

/-- C8 witness at concrete inputs. -/
theorem c8_witness :
    processItem (fun _ => .ok .null) "http://t"
      ⟨"", "hi", "completion", "/generate", "text_input", "text_output", []⟩ [] =
      (.error (mkJsError "Model Name is a required parameter."), []) ∧
    processItem (fun _ => .ok .null) "http://t"
      ⟨"llama2vllm", "", "completion", "/generate", "text_input", "text_output", []⟩ [] =
      (.error (mkJsError "Text Input is a required parameter."), []) :=
  ⟨(c8_fail_fast (fun _ => .ok .null) "http://t"
      ⟨"", "hi", "completion", "/generate", "text_input", "text_output", []⟩ []).1 rfl,
   (c8_fail_fast (fun _ => .ok .null) "http://t"
      ⟨"llama2vllm", "", "completion", "/generate", "text_input", "text_output", []⟩ []).2
    (by decide) rfl (by decide)⟩

/-- C2 counterexample: the source lowercases the value before comparing, so
the string `"TRUE"` — which the claim files under "any other string value ...
transmitted unchanged" — is transmitted as boolean `true`. -/
theorem c2_counterexample :
    coerceParamValue (.str "TRUE") = .bool true ∧
    JSValue.bool true ≠ JSValue.str "TRUE" :=
  ⟨rfl, fun h => JSValue.noConfusion h⟩

/-- C2 (amended): for every entry with a non-empty name, a value whose
lowercasing is `true`/`false` is transmitted as the corresponding boolean; a
value whose `parseFloat` is not NaN and whose `Number` conversion is finite
is transmitted as the `parseFloat` value; every other string value is
transmitted unchanged; and the parameters object transmits the (last) entry
under its name with exactly this coercion applied. -/
theorem c2_amended :
    (∀ s : String,
      (jsToLower s = "true" → coerceParamValue (.str s) = .bool true) ∧
      (jsToLower s ≠ "true" → jsToLower s = "false" →
        coerceParamValue (.str s) = .bool false) ∧
      (∀ q : ℚ, jsToLower s ≠ "true" → jsToLower s ≠ "false" →
        parseFloatNum s = .fin q → (jsNumber s).isFinite = true →
        coerceParamValue (.str s) = .num q) ∧
      (jsToLower s ≠ "true" → jsToLower s ≠ "false" →
        ((parseFloatNum s).isNaN = true ∨ (jsNumber s).isFinite = false) →
        coerceParamValue (.str s) = .str s)) ∧
    (∀ (params : List (String × JSValue)) (n : String) (v : JSValue), n ≠ "" →
      objGet (buildTritonParameters (params ++ [(n, v)])) n =
        some (coerceParamValue v)) := by
  constructor
  · intro s
    refine ⟨?_, ?_, ?_, ?_⟩
    · intro h
      simp only [coerceParamValue]
      rw [if_pos h]
    · intro h1 h2
      simp only [coerceParamValue]
      rw [if_neg h1, if_pos h2]
    · intro q h1 h2 hq hfin
      simp only [coerceParamValue]
      rw [if_neg h1, if_neg h2, if_pos (by rw [hq, hfin]; rfl), hq]
    · intro h1 h2 h3
      simp only [coerceParamValue]
      rw [if_neg h1, if_neg h2, if_neg]
      rcases h3 with h3 | h3 <;> simp [h3]
  · intro params n v hn
    unfold buildTritonParameters
    rw [List.foldl_append]
    simp only [List.foldl_cons, List.foldl_nil]
    rw [if_pos hn, objGet_objSet]
    simp

/-- C2 amended witness at concrete inputs. -/
theorem c2_amended_witness :
    coerceParamValue (.str "true") = .bool true ∧
    coerceParamValue (.str "False") = .bool false ∧
    coerceParamValue (.str "0.1") = .num (mkRat 1 10) ∧
    coerceParamValue (.str "3abc") = .str "3abc" ∧
    objGet (buildTritonParameters [("max_tokens", .str "256")]) "max_tokens" =
      some (coerceParamValue (.str "256")) :=
  ⟨(c2_amended.1 "true").1 rfl,
   (c2_amended.1 "False").2.1 (by decide) rfl,
   (c2_amended.1 "0.1").2.2.1 (mkRat 1 10) (by decide) (by decide) (by decide) (by decide),
   (c2_amended.1 "3abc").2.2.2 (by decide) (by decide) (Or.inr (by decide)),
   c2_amended.2 [] "max_tokens" (.str "256") (by decide)⟩

/-- C3 counterexample: with the request input field configured as the literal
name `parameters` and a non-empty parameter set, the later assignment
`payload.parameters = tritonApiParameters` overwrites the field, so the
outbound POST body's designated input field holds the parameters object — the
supplied text `"hi"` appears nowhere in it. -/
theorem c3_counterexample :
    executePayload ⟨"llama2vllm", "hi", "completion", "/generate",
      "parameters", "text_output", [("temperature", .str "0.1")]⟩ =
      [("parameters", .obj [("temperature", .num (mkRat 1 10))])] ∧
    (processItem (fun _ => .ok .null) "http://t"
      ⟨"llama2vllm", "hi", "completion", "/generate", "parameters",
        "text_output", [("temperature", .str "0.1")]⟩ []).2 =
      [⟨"POST", "http://t/v2/models/llama2vllm/generate",
        .obj [("parameters", .obj [("temperature", .num (mkRat 1 10))])]⟩] ∧
    JSValue.obj [("temperature", JSValue.num (mkRat 1 10))] ≠ JSValue.str "hi" :=
  ⟨rfl, rfl, fun h => JSValue.noConfusion h⟩

/-- C3 (amended): for a non-empty model name and non-empty text input, the
execute node issues exactly one POST whose JSON body carries the supplied
text, unmodified, under the configured request input field — unless that field
is the literal name `parameters` while the coerced parameter set is non-empty,
in which case the parameters object overwrites it and the body's designated
field holds the parameters object instead of the text.  The infer-protocol
payload always carries the prompt, unmodified, as `data[0]` of its single
input tensor. -/
theorem c3_input_field_exact :
    (∀ (http : HttpRequest → Except JsError JSValue) (serverUrl : String)
      (cfg : ExecCfg) (item : List (String × JSValue)),
      cfg.modelName ≠ "" → cfg.textInput ≠ "" → cfg.requestInputField ≠ "" →
      cfg.requestInputField ≠ "parameters" →
      (processItem http serverUrl cfg item).2 = [executeRequest serverUrl cfg] ∧
      executeRequest serverUrl cfg =
        ⟨"POST", executeUrl serverUrl cfg, .obj (executePayload cfg)⟩ ∧
      objGet (executePayload cfg) cfg.requestInputField =
        some (.str cfg.textInput)) ∧
    (∀ cfg : ExecCfg, cfg.requestInputField = "parameters" →
      (buildTritonParameters cfg.parameters).isEmpty = false →
      objGet (executePayload cfg) "parameters" =
        some (.obj (buildTritonParameters cfg.parameters))) ∧
    (∀ (rid inF outF : String) (temp : Option ℚ) (prompt : String),
      objGet (inferPayload rid inF outF temp prompt) "inputs" =
        some (.arr [.obj [("name", .str inF), ("shape", .arr [.num 1]),
          ("datatype", .str "BYTES"), ("data", .arr [.str prompt])]])) := by
  refine ⟨?_, ?_, ?_⟩
  · intro http serverUrl cfg item hm ht hf hpf
    refine ⟨?_, rfl, ?_⟩
    · unfold processItem
      rw [if_neg hm, if_neg (fun hc => ht hc.1)]
      cases h : http (executeRequest serverUrl cfg) <;> simp [h]
    · unfold executePayload
      by_cases htp : (buildTritonParameters cfg.parameters).isEmpty
      · rw [if_pos htp, if_pos hf, objGet_objSet]
        simp
      · rw [if_neg htp, if_pos hf, objGet_objSet, if_neg hpf, objGet_objSet]
        simp
  · intro cfg hf htp
    unfold executePayload
    rw [if_neg (by rw [htp]; exact Bool.false_ne_true),
      if_pos (by rw [hf]; exact fun h => absurd h (by decide)),
      hf, objGet_objSet, objGet_objSet]
    simp
  · intro rid inF outF temp prompt
    cases temp <;> rfl

/-- C3 witness at concrete inputs, covering the verbatim case, the
`parameters`-collision case and the infer tensor. -/
theorem c3_witness :
    (processItem (fun _ => .ok .null) "http://mock-triton:8000"
        ⟨"llama2vllm", "What is Triton?", "completion", "/generate",
          "text_input", "text_output", []⟩ []).2 =
      [executeRequest "http://mock-triton:8000"
        ⟨"llama2vllm", "What is Triton?", "completion", "/generate",
          "text_input", "text_output", []⟩] ∧
    objGet (executePayload ⟨"llama2vllm", "What is Triton?", "completion",
        "/generate", "text_input", "text_output", []⟩) "text_input" =
      some (.str "What is Triton?") ∧
    objGet (executePayload ⟨"llama2vllm", "hi", "completion", "/generate",
        "parameters", "text_output", [("temperature", .str "0.1")]⟩)
        "parameters" =
      some (.obj (buildTritonParameters [("temperature", .str "0.1")])) ∧
    objGet (inferPayload "n8n_id" "INPUT" "OUTPUT" none "hi") "inputs" =
      some (.arr [.obj [("name", .str "INPUT"), ("shape", .arr [.num 1]),
        ("datatype", .str "BYTES"), ("data", .arr [.str "hi"])]]) := by
  refine ⟨?_, ?_, ?_, ?_⟩
  · exact ((c3_input_field_exact.1 (fun _ => .ok .null) "http://mock-triton:8000"
      ⟨"llama2vllm", "What is Triton?", "completion", "/generate",
        "text_input", "text_output", []⟩ []) (by decide) (by decide) (by decide)
      (by decide)).1
  · exact ((c3_input_field_exact.1 (fun _ => .ok .null) "http://mock-triton:8000"
      ⟨"llama2vllm", "What is Triton?", "completion", "/generate",
        "text_input", "text_output", []⟩ []) (by decide) (by decide) (by decide)
      (by decide)).2.2
  · exact c3_input_field_exact.2.1
      ⟨"llama2vllm", "hi", "completion", "/generate", "parameters",
        "text_output", [("temperature", .str "0.1")]⟩ rfl rfl
  · exact c3_input_field_exact.2.2 "n8n_id" "INPUT" "OUTPUT" none "hi"

/-- C1 counterexample: on the execute-node path a response object without the
configured output field (here the empty object, lacking `text_output`) does
NOT raise: the item is processed to a normal success record with an empty
completion and the raw response attached. -/
theorem c1_counterexample :
    processItem (fun _ => .ok (.obj [])) "http://t"
      ⟨"llama2vllm", "hi", "completion", "/generate", "text_input",
        "text_output", []⟩ [] =
    (.ok [("completion", .str ""), ("rawTritonResponse", .obj [])],
      [⟨"POST", "http://t/v2/models/llama2vllm/generate",
        .obj [("text_input", .str "hi")]⟩]) := rfl

/-- C1 (amended): the `/generate` chat-model extractor does raise on a missing
or non-string `text_output`, with a message naming the field and embedding the
JSON-serialized response; the execute-node path instead logs and returns a
normal record whose configured output field is the empty string and whose
`rawTritonResponse` carries the response. -/
theorem c1_amended :
    (∀ resp : JSValue, (jsGetProp resp "text_output").isStr = false →
      genExtract resp =
        .error ("Invalid response structure from Triton: 'text_output' not found or not a string. Response: "
          ++ stringify resp) ∧
      (∃ pre post,
        ("Invalid response structure from Triton: 'text_output' not found or not a string. Response: "
          ++ stringify resp) = pre ++ "text_output" ++ post) ∧
      (∃ pre post,
        ("Invalid response structure from Triton: 'text_output' not found or not a string. Response: "
          ++ stringify resp) = pre ++ stringify resp ++ post)) ∧
    (∀ (http : HttpRequest → Except JsError JSValue) (serverUrl : String)
      (cfg : ExecCfg) (item : List (String × JSValue)) (resp : JSValue),
      cfg.modelName ≠ "" → ¬(cfg.textInput = "" ∧ cfg.requestInputField ≠ "") →
      http (executeRequest serverUrl cfg) = .ok resp →
      executeRespHasField cfg.responseOutputField resp = false →
      processItem http serverUrl cfg item =
        (.ok (objSet (objSet item cfg.outputFieldNameN8n (.str ""))
          "rawTritonResponse" resp), [executeRequest serverUrl cfg])) := by
  constructor
  · intro resp h
    refine ⟨?_, ?_, ?_⟩
    · unfold genExtract
      split
      · rename_i s hs
        rw [hs] at h
        simp [JSValue.isStr] at h
      · rfl
    · refine ⟨"Invalid response structure from Triton: '",
        "' not found or not a string. Response: " ++ stringify resp, ?_⟩
      rw [← String.append_assoc]
      rfl
    · refine ⟨"Invalid response structure from Triton: 'text_output' not found or not a string. Response: ",
        "", ?_⟩
      rw [String.append_empty]
  · intro http serverUrl cfg item resp hm ht hresp hfield
    unfold processItem
    rw [if_neg hm, if_neg ht]
    simp [hresp, hfield]

/-- C1 amended witness at concrete inputs. -/
theorem c1_amended_witness :
    genExtract (.obj []) =
      .error ("Invalid response structure from Triton: 'text_output' not found or not a string. Response: "
        ++ stringify (.obj [])) ∧
    processItem (fun _ => .ok (.obj [])) "http://t"
      ⟨"llama2vllm", "hi", "completion", "/generate", "text_input",
        "text_output", []⟩ [] =
      (.ok (objSet (objSet [] "completion" (.str "")) "rawTritonResponse" (.obj [])),
        [executeRequest "http://t"
          ⟨"llama2vllm", "hi", "completion", "/generate", "text_input",
            "text_output", []⟩]) :=
  ⟨(c1_amended.1 (.obj []) rfl).1,
   c1_amended.2 (fun _ => .ok (.obj [])) "http://t"
     ⟨"llama2vllm", "hi", "completion", "/generate", "text_input",
       "text_output", []⟩ [] (.obj []) (by decide) (by simp) rfl rfl⟩

theorem inferExtract_errHead (f : String) (resp : JSValue) (i : Fin 4)
    (hidx : inferCaseIdx f resp = some i) :
    exceptErrHead (inferExtract f resp) = some (inferCaseHeadChar i) := by
  unfold inferCaseIdx at hidx
  unfold inferExtract
  split
  · rename_i xs heq
    simp only [heq] at hidx
    split
    · rename_i hfind
      simp only [hfind] at hidx
      injection hidx with hidx
      subst hidx
      simp only [exceptErrHead]
      exact strHead_append (("Output field '" ++ f) ++ "' not found. Available: ") _ _
        (strHead_append ("Output field '" ++ f) _ _
          (strHead_append "Output field '" _ _ rfl))
    · rename_i o hfind
      simp only [hfind] at hidx
      split
      · rename_i x rest hdata
        simp only [hdata] at hidx
        split at hidx
        · cases hidx
        · rename_i hxs
          injection hidx with hidx
          subst hidx
          split
          · simp_all [JSValue.isStr]
          · simp only [exceptErrHead]
            exact strHead_append (("Expected string data for '" ++ f) ++ "', got ") _ _
              (strHead_append ("Expected string data for '" ++ f) _ _
                (strHead_append "Expected string data for '" _ _ rfl))
      · rename_i hdata
        simp only [hdata] at hidx
        injection hidx with hidx
        subst hidx
        simp only [exceptErrHead]
        exact strHead_append (("Data for '" ++ f) ++ "' missing/not array. Output: ") _ _
          (strHead_append ("Data for '" ++ f) _ _
            (strHead_append "Data for '" _ _ rfl))
  · rename_i heq
    simp only [heq] at hidx
    injection hidx with hidx
    subst hidx
    simp only [exceptErrHead]
    exact strHead_append "Invalid response: 'outputs' array not found. Response: " _ _ rfl

theorem inferExtract_isOk (f : String) (resp : JSValue)
    (hidx : inferCaseIdx f resp = none) :
    exceptIsOk (inferExtract f resp) = true := by
  unfold inferCaseIdx at hidx
  unfold inferExtract
  split
  · rename_i xs heq
    simp only [heq] at hidx
    split
    · rename_i hfind
      simp only [hfind] at hidx
      exact Option.noConfusion hidx
    · rename_i o hfind
      simp only [hfind] at hidx
      split
      · rename_i x rest hdata
        simp only [hdata] at hidx
        split at hidx
        · rename_i hxs
          split
          · rfl
          · rename_i hnot
            cases x <;> simp_all [JSValue.isStr]
        · exact Option.noConfusion hidx
      · rename_i hdata
        simp only [hdata] at hidx
        exact Option.noConfusion hidx
  · rename_i heq
    simp only [heq] at hidx
    exact Option.noConfusion hidx

/-- C7: over responses whose `outputs` elements are objects, the four guarded
failure cases of the infer extractor each yield an error message with a
distinct leading word (hence any two errors from different cases differ), and
a response meeting all four preconditions yields a success, not an error. -/
theorem c7_distinct_errors :
    (∀ (f : String) (resp : JSValue) (i : Fin 4),
      outputsElemsObjB resp = true → inferCaseIdx f resp = some i →
      exceptErrHead (inferExtract f resp) = some (inferCaseHeadChar i)) ∧
    (∀ (f : String) (resp : JSValue),
      outputsElemsObjB resp = true → inferCaseIdx f resp = none →
      exceptIsOk (inferExtract f resp) = true) ∧
    (∀ (f f2 : String) (r r2 : JSValue) (i j : Fin 4) (m m2 : String),
      outputsElemsObjB r = true → outputsElemsObjB r2 = true →
      inferCaseIdx f r = some i → inferCaseIdx f2 r2 = some j → i ≠ j →
      inferExtract f r = .error m → inferExtract f2 r2 = .error m2 →
      m ≠ m2) := by
  have hinj : ∀ i j : Fin 4, i ≠ j → inferCaseHeadChar i ≠ inferCaseHeadChar j := by
    decide
  refine ⟨fun f resp i _ h => inferExtract_errHead f resp i h,
    fun f resp _ h => inferExtract_isOk f resp h, ?_⟩
  intro f f2 r r2 i j m m2 _ _ hi hj hij hm hm2 hmm
  have h1 := inferExtract_errHead f r i hi
  have h2 := inferExtract_errHead f2 r2 j hj
  rw [hm] at h1
  rw [hm2] at h2
  simp only [exceptErrHead] at h1 h2
  rw [hmm] at h1
  rw [h1] at h2
  exact hinj i j hij (Option.some.inj h2)

/-- C7 witness at concrete inputs, one per failure case plus the success case
and one concrete pair of distinct messages. -/
theorem c7_witness :
    exceptErrHead (inferExtract "OUTPUT" (.obj [])) =
      some (inferCaseHeadChar 0) ∧
    exceptErrHead (inferExtract "OUTPUT" (.obj [("outputs", .arr [])])) =
      some (inferCaseHeadChar 1) ∧
    exceptErrHead (inferExtract "OUTPUT"
        (.obj [("outputs", .arr [.obj [("name", .str "OUTPUT")]])])) =
      some (inferCaseHeadChar 2) ∧
    exceptErrHead (inferExtract "OUTPUT"
        (.obj [("outputs", .arr [.obj [("name", .str "OUTPUT"),
          ("data", .arr [.num 3])]])])) =
      some (inferCaseHeadChar 3) ∧
    exceptIsOk (inferExtract "OUTPUT"
        (.obj [("outputs", .arr [.obj [("name", .str "OUTPUT"),
          ("data", .arr [.str "result"])]])])) = true ∧
    ("Invalid response: 'outputs' array not found. Response: \x7b\x7d" : String) ≠
      "Output field 'OUTPUT' not found. Available: " :=
  ⟨c7_distinct_errors.1 "OUTPUT" (.obj []) 0 rfl rfl,
   c7_distinct_errors.1 "OUTPUT" (.obj [("outputs", .arr [])]) 1 rfl rfl,
   c7_distinct_errors.1 "OUTPUT"
     (.obj [("outputs", .arr [.obj [("name", .str "OUTPUT")]])]) 2 rfl rfl,
   c7_distinct_errors.1 "OUTPUT"
     (.obj [("outputs", .arr [.obj [("name", .str "OUTPUT"),
       ("data", .arr [.num 3])]])]) 3 rfl rfl,
   c7_distinct_errors.2.1 "OUTPUT"
     (.obj [("outputs", .arr [.obj [("name", .str "OUTPUT"),
       ("data", .arr [.str "result"])]])]) rfl rfl,
   c7_distinct_errors.2.2 "OUTPUT" "OUTPUT" (.obj [])
     (.obj [("outputs", .arr [])]) 0 1
     "Invalid response: 'outputs' array not found. Response: \x7b\x7d"
     "Output field 'OUTPUT' not found. Available: "
     rfl rfl rfl rfl (by decide) rfl rfl⟩

theorem jsStrictEq_refl_of_str (v : JSValue) (h : v.isStr = true) :
    jsStrictEq v v = true := by
  cases v <;> simp_all [JSValue.isStr, jsStrictEq]

theorem getModels_arr (u : String) (hu : u ≠ "") (xs : List JSValue) :
    getModels (some u) (.ok (.arr xs)) =
      if (jsFilterUnique (candidateModels xs)).isEmpty then
        [(.str "No ready models found or repository index empty.", .str "")]
      else jsFilterUnique (candidateModels xs) := by
  simp only [getModels]
  rw [if_neg hu]

/-- C5 counterexample: an index entry with a name but no `state` field is
admitted by this variant's filter, so a response with no READY entry still
yields a real model option, not the sentinel the claim requires. -/
theorem c5_counterexample :
    getModels (some "http://t") (.ok (.arr [.obj [("name", .str "m")]])) =
      [(.str "m", .str "m")] ∧
    [((JSValue.str "m"), (JSValue.str "m"))] ≠
      [(JSValue.str "No ready models found or repository index empty.",
        JSValue.str "")] := by
  refine ⟨rfl, fun h => ?_⟩
  injection h with h1 _
  injection h1 with ha _
  injection ha with hs
  exact absurd hs (by decide)

/-- C5 (amended): discovery always returns a non-empty list; admissible
entries are those with a truthy name whose `state` is `READY` **or absent**;
an index (of well-shaped entries) with no admissible entry yields exactly the
single "no models" sentinel, and an HTTP failure yields exactly the single
catch-branch sentinel instead of raising. -/
theorem c5_amended :
    (∀ (u : String) (e : JsError), u ≠ "" →
      getModels (some u) (.error e) =
        [(.str (getModelsCatchMsg (stripTrailingSlashes u) e), .str "")]) ∧
    (∀ (u : String) (xs : List JSValue), u ≠ "" →
      xs.all modelEntryOkB = true →
      xs.all (fun m => !tritonAdmissible m) = true →
      getModels (some u) (.ok (.arr xs)) =
        [(.str "No ready models found or repository index empty.", .str "")]) ∧
    (∀ (u? : Option String) (hr : Except JsError JSValue),
      getModels u? hr ≠ []) := by
  refine ⟨?_, ?_, ?_⟩
  · intro u e hu
    simp only [getModels]
    rw [if_neg hu]
  · intro u xs hu _ hno
    rw [getModels_arr u hu xs]
    have hfil : xs.filter tritonAdmissible = [] := by
      rw [List.filter_eq_nil_iff]
      intro a ha
      have := List.all_eq_true.mp hno a ha
      simpa using this
    simp [candidateModels, hfil, jsFilterUnique, filterUniqueAux]
  · intro u? hr
    match u?, hr with
    | none, _ => simp [getModels]
    | some u, .error e =>
      by_cases hu : u = "" <;> simp [getModels, hu]
    | some u, .ok resp =>
      by_cases hu : u = ""
      · simp [getModels, hu]
      · cases resp <;> simp [getModels, hu] <;> split_ifs <;> simp_all

/-- C5 amended witness at concrete inputs. -/
theorem c5_amended_witness :
    getModels (some "http://t") (.error (mkJsError "Network error")) =
      [(.str (getModelsCatchMsg "http://t" (mkJsError "Network error")), .str "")] ∧
    getModels (some "http://t") (.ok (.arr [])) =
      [(.str "No ready models found or repository index empty.", .str "")] ∧
    getModels (some "http://t")
      (.ok (.arr [.obj [("name", .str "m"), ("state", .str "LOADING")]])) =
      [(.str "No ready models found or repository index empty.", .str "")] ∧
    getModels none (.ok .null) ≠ [] := by
  refine ⟨?_, ?_, ?_, ?_⟩
  · exact c5_amended.1 "http://t" (mkJsError "Network error") (by decide)
  · exact c5_amended.2.1 "http://t" [] (by decide) rfl rfl
  · exact c5_amended.2.1 "http://t"
      [.obj [("name", .str "m"), ("state", .str "LOADING")]] (by decide) rfl rfl
  · exact c5_amended.2.2 none (.ok .null)

/-- C6: under well-shaped index entries, the discovery result contains each
model name (each option value) at most once, on a non-empty candidate list it
is exactly the source's first-index-wins filter, and every kept option is the
first candidate — in response order — carrying its value. -/
theorem c6_dedup_first :
    ∀ (u : String) (xs : List JSValue), u ≠ "" →
      xs.all modelEntryOkB = true →
      ((getModels (some u) (.ok (.arr xs))).map Prod.snd).Nodup ∧
      (candidateModels xs ≠ [] →
        getModels (some u) (.ok (.arr xs)) = jsFilterUnique (candidateModels xs)) ∧
      (∀ o ∈ jsFilterUnique (candidateModels xs),
        (candidateModels xs).find? (fun m => jsStrictEq m.2 o.2) = some o) := by
  intro u xs hu hok
  have hvalstr : ∀ o ∈ candidateModels xs, (o.2).isStr = true := by
    intro o ho
    unfold candidateModels at ho
    obtain ⟨m, hm, rfl⟩ := List.mem_map.mp ho
    have hmem := List.mem_filter.mp hm
    have hshape := List.all_eq_true.mp hok m hmem.1
    simp [modelEntryOkB] at hshape
    simpa [modelOption] using hshape.2
  have hne : candidateModels xs ≠ [] →
      (jsFilterUnique (candidateModels xs)).isEmpty = false := by
    intro hnil
    cases hcand : candidateModels xs with
    | nil => exact absurd hcand hnil
    | cons c cs =>
      have hstr : (c.2).isStr = true :=
        hvalstr c (hcand ▸ List.mem_cons_self c cs)
      have hrefl := jsStrictEq_refl_of_str c.2 hstr
      have hkept := jsFilterUnique_ne_nil c cs hrefl
      cases hres : jsFilterUnique (c :: cs) with
      | nil => exact absurd hres hkept
      | cons a l => rfl
  refine ⟨?_, ?_, fun o ho => jsFilterUnique_first _ o ho⟩
  · rw [getModels_arr u hu xs]
    by_cases hempty : (jsFilterUnique (candidateModels xs)).isEmpty
    · rw [if_pos hempty]
      simp
    · rw [if_neg hempty]
      exact jsFilterUnique_values_nodup _
  · intro hnil
    rw [getModels_arr u hu xs, if_neg]
    rw [hne hnil]
    simp

/-- C6 witness at concrete inputs (the duplicated name `model1` from the
node's own test fixture). -/
theorem c6_witness :
    ((getModels (some "http://mock-triton:8000")
        (.ok (.arr [.obj [("name", .str "model1"), ("version", .str "1"),
            ("state", .str "READY")],
          .obj [("name", .str "model2"), ("state", .str "READY")],
          .obj [("name", .str "model1"), ("version", .str "2"),
            ("state", .str "READY")]]))).map Prod.snd).Nodup ∧
    (candidateModels [.obj [("name", .str "model1"), ("version", .str "1"),
        ("state", .str "READY")],
      .obj [("name", .str "model2"), ("state", .str "READY")],
      .obj [("name", .str "model1"), ("version", .str "2"),
        ("state", .str "READY")]]).find?
      (fun m => jsStrictEq m.2 (JSValue.str "model1")) =
      some (.str "model1 (v1)", .str "model1") := by
  constructor
  · exact (c6_dedup_first "http://mock-triton:8000"
      [.obj [("name", .str "model1"), ("version", .str "1"),
          ("state", .str "READY")],
        .obj [("name", .str "model2"), ("state", .str "READY")],
        .obj [("name", .str "model1"), ("version", .str "2"),
          ("state", .str "READY")]] (by decide) rfl).1
  · have hev : jsFilterUnique (candidateModels
        [.obj [("name", .str "model1"), ("version", .str "1"),
            ("state", .str "READY")],
          .obj [("name", .str "model2"), ("state", .str "READY")],
          .obj [("name", .str "model1"), ("version", .str "2"),
            ("state", .str "READY")]]) =
        [(.str "model1 (v1)", .str "model1"), (.str "model2", .str "model2")] := rfl
    exact (c6_dedup_first "http://mock-triton:8000"
      [.obj [("name", .str "model1"), ("version", .str "1"),
          ("state", .str "READY")],
        .obj [("name", .str "model2"), ("state", .str "READY")],
        .obj [("name", .str "model1"), ("version", .str "2"),
          ("state", .str "READY")]] (by decide) rfl).2.2
      (.str "model1 (v1)", .str "model1")
      (by rw [hev]; exact List.mem_cons_self _ _)

theorem executeItems_cof (http : HttpRequest → Except JsError JSValue)
    (serverUrl : String) (cfg : Nat → ExecCfg) :
    ∀ (items : List (List (String × JSValue))) (k : Nat),
      executeItems true http serverUrl cfg k items =
        .ok (items.mapIdx (fun j item =>
          match (processItem http serverUrl (cfg (k + j)) item).1 with
          | .ok r => NodeRecord.ok r
          | .error e' => NodeRecord.err item (errorDetailsOf e'))) := by
  intro items
  induction items with
  | nil => intro k; rfl
  | cons item rest ih =>
    intro k
    have hfun :
        (fun j it =>
          match (processItem http serverUrl (cfg (k + 1 + j)) it).1 with
          | .ok r => NodeRecord.ok r
          | .error e' => NodeRecord.err it (errorDetailsOf e')) =
        (fun j it =>
          match (processItem http serverUrl (cfg (k + (j + 1))) it).1 with
          | .ok r => NodeRecord.ok r
          | .error e' => NodeRecord.err it (errorDetailsOf e')) := by
      funext j it
      rw [show k + 1 + j = k + (j + 1) from by omega]
    rw [executeItems]
    cases hp : (processItem http serverUrl (cfg k) item).1 with
    | ok r =>
      rw [ih (k + 1), List.mapIdx_cons]
      simp only [Except.map_ok]
      rw [show cfg (k + 0) = cfg k from by rw [Nat.add_zero], hp, hfun]
      rfl
    | error e' =>
      rw [ih (k + 1), List.mapIdx_cons]
      simp only [Except.map_ok]
      rw [show cfg (k + 0) = cfg k from by rw [Nat.add_zero], hp, hfun]
      rfl

theorem executeItems_halt (http : HttpRequest → Except JsError JSValue)
    (serverUrl : String) (cfg : Nat → ExecCfg) :
    ∀ (items : List (List (String × JSValue))) (k i : Nat) (e : JsError),
      i < items.length →
      (∀ j, j < i → ∀ item, items.get? j = some item →
        ∃ r, (processItem http serverUrl (cfg (k + j)) item).1 = .ok r) →
      (∀ item, items.get? i = some item →
        (processItem http serverUrl (cfg (k + i)) item).1 = .error e) →
      executeItems false http serverUrl cfg k items = .error (enrichError e) := by
  intro items
  induction items with
  | nil =>
    intro k i e hi _ _
    simp at hi
  | cons x rest ih =>
    intro k i e hi hok herr
    cases i with
    | zero =>
      have hx := herr x rfl
      rw [Nat.add_zero] at hx
      rw [executeItems]
      rw [hx]
      rfl
    | succ i' =>
      obtain ⟨r, hr⟩ := hok 0 (Nat.succ_pos i') x rfl
      rw [Nat.add_zero] at hr
      rw [executeItems, hr]
      have hrec := ih (k + 1) i' e (by simpa using hi)
        (fun j hj item hitem => by
          have := hok (j + 1) (by omega) item hitem
          rwa [show k + (j + 1) = k + 1 + j from by omega] at this)
        (fun item hitem => by
          have := herr item hitem
          rwa [show k + (i' + 1) = k + 1 + i' from by omega] at this)
      rw [hrec]
      rfl

/-- C4: when processing of item `i` throws (earlier items succeeding): with
continue-on-fail active the node's output is one record per input item — the
mapped success records, with item `i` (and any other failing item) carried as
its original input json paired with the structured error object (message,
stack, details) — so items after `i` are still processed; with the policy
inactive the node propagates the enriched error (message wrapped, server
detail appended when the response body holds one) and returns no records. -/
theorem c4_continue_on_fail :
    ∀ (http : HttpRequest → Except JsError JSValue) (rawServerUrl : String)
      (cfg : Nat → ExecCfg) (items : List (List (String × JSValue)))
      (i : Nat) (e : JsError),
      i < items.length →
      (∀ j, j < i → ∀ item, items.get? j = some item →
        ∃ r, (processItem http (stripTrailingSlashes rawServerUrl) (cfg j)
          item).1 = .ok r) →
      (∀ item, items.get? i = some item →
        (processItem http (stripTrailingSlashes rawServerUrl) (cfg i)
          item).1 = .error e) →
      (executeNode true http rawServerUrl cfg items =
        .ok (items.mapIdx (fun j item =>
          match (processItem http (stripTrailingSlashes rawServerUrl) (cfg j)
            item).1 with
          | .ok r => NodeRecord.ok r
          | .error e' => NodeRecord.err item (errorDetailsOf e'))) ∧
       (∀ item, items.get? i = some item →
        ∃ recs, executeNode true http rawServerUrl cfg items = .ok recs ∧
          recs.length = items.length ∧
          recs.get? i = some (NodeRecord.err item (errorDetailsOf e)))) ∧
      executeNode false http rawServerUrl cfg items =
        .error (enrichError e) := by
  intro http raw cfg items i e hi hok herr
  have hfun0 :
      (fun j it =>
        match (processItem http (stripTrailingSlashes raw) (cfg (0 + j))
          it).1 with
        | .ok r => NodeRecord.ok r
        | .error e' => NodeRecord.err it (errorDetailsOf e')) =
      (fun j it =>
        match (processItem http (stripTrailingSlashes raw) (cfg j) it).1 with
        | .ok r => NodeRecord.ok r
        | .error e' => NodeRecord.err it (errorDetailsOf e')) := by
    funext j it
    rw [Nat.zero_add]
  have hcof := executeItems_cof http (stripTrailingSlashes raw) cfg items 0
  rw [hfun0] at hcof
  refine ⟨⟨hcof, ?_⟩, ?_⟩
  · intro item hitem
    have hlen : i < (items.mapIdx (fun j it =>
        match (processItem http (stripTrailingSlashes raw) (cfg j) it).1 with
        | .ok r => NodeRecord.ok r
        | .error e' => NodeRecord.err it (errorDetailsOf e'))).length := by
      rw [List.length_mapIdx]
      exact hi
    have hget : items.get ⟨i, hi⟩ = item := by
      have hsome := List.get?_eq_get hi
      rw [hitem] at hsome
      exact (Option.some.inj hsome).symm
    refine ⟨_, hcof, List.length_mapIdx, ?_⟩
    rw [List.get?_eq_get hlen, List.get_mapIdx items _ i hi hlen, hget,
      herr item hitem]
  · exact executeItems_halt http (stripTrailingSlashes raw) cfg items 0 i e hi
      (fun j hj it hit => by simpa using hok j hj it hit)
      (fun it hit => by simpa using herr it hit)

/-- C4 witness: two items, the second with an empty model name; with
continue-on-fail the first still succeeds and the second becomes an error
record, without it the run aborts with the enriched error. -/
theorem c4_witness :
    executeNode true (fun _ => .ok (.obj [("text_output", .str "hello")]))
      "http://t"
      (fun j => if j = 0 then
        ⟨"llama2vllm", "hi", "completion", "/generate", "text_input",
          "text_output", []⟩
       else
        ⟨"", "hi", "completion", "/generate", "text_input",
          "text_output", []⟩)
      [[("k", .str "v")], [("m", .str "w")]] =
      .ok [NodeRecord.ok [("k", .str "v"), ("completion", .str "hello"),
            ("rawTritonResponse", .obj [("text_output", .str "hello")])],
           NodeRecord.err [("m", .str "w")]
            (errorDetailsOf (mkJsError "Model Name is a required parameter."))] ∧
    executeNode false (fun _ => .ok (.obj [("text_output", .str "hello")]))
      "http://t"
      (fun j => if j = 0 then
        ⟨"llama2vllm", "hi", "completion", "/generate", "text_input",
          "text_output", []⟩
       else
        ⟨"", "hi", "completion", "/generate", "text_input",
          "text_output", []⟩)
      [[("k", .str "v")], [("m", .str "w")]] =
      .error (enrichError (mkJsError "Model Name is a required parameter.")) := by
  have h := c4_continue_on_fail
    (fun _ => .ok (.obj [("text_output", .str "hello")])) "http://t"
    (fun j => if j = 0 then
      ⟨"llama2vllm", "hi", "completion", "/generate", "text_input",
        "text_output", []⟩
     else
      ⟨"", "hi", "completion", "/generate", "text_input",
        "text_output", []⟩)
    [[("k", .str "v")], [("m", .str "w")]] 1
    (mkJsError "Model Name is a required parameter.")
    (by decide)
    (fun j hj item hitem => by
      have hj0 : j = 0 := by omega
      subst hj0
      have hsome : some [("k", JSValue.str "v")] = some item := hitem
      obtain rfl := (Option.some.inj hsome).symm
      exact ⟨_, rfl⟩)
    (fun item hitem => by
      have hsome : some [("m", JSValue.str "w")] = some item := hitem
      obtain rfl := (Option.some.inj hsome).symm
      rfl)
  exact ⟨h.1.1.trans (by rfl), h.2⟩
